import Mathlib

/-!
Shallow embedding of the engram-mcp request-proxying core:
input sanitization/validation (src/security/validator.ts),
the sliding-window rate limiter (src/security/rate-limiter.ts),
the HTTP request executor with retries (src/engram-api.ts), and
the tool-handler error classification (src/index.ts `handleError` and the
tool handlers' control flow).

Strings handled character-wise (sanitization, trimming) are modelled as
`List Char`; opaque message strings use Lean `String`.  JS numbers that hold
millisecond timestamps are modelled as `Int` (Date.now()); counts and HTTP
statuses as `Nat`.
-/

/-! ## Validator (src/security/validator.ts) -/

/-- The control characters stripped by `sanitizeString`'s regex
`[\x00-\x08\x0B\x0C\x0E-\x1F\x7F]` (note: keeps tab 0x09, LF 0x0A and
CR 0x0D). -/
def isStrippedControl (c : Char) : Bool :=
  decide (c.toNat ≤ 8) || c.toNat == 11 || c.toNat == 12 ||
  (decide (14 ≤ c.toNat) && decide (c.toNat ≤ 31)) || c.toNat == 127

/-- The character class removed by JavaScript `String.prototype.trim`:
WhiteSpace (tab, VT, FF, space, NBSP, BOM, Unicode Zs) and LineTerminator
(LF, CR, LS, PS). -/
def isJsWhitespace (c : Char) : Bool :=
  (decide (9 ≤ c.toNat) && decide (c.toNat ≤ 13)) || c.toNat == 32 ||
  c.toNat == 160 || c.toNat == 0x1680 ||
  (decide (0x2000 ≤ c.toNat) && decide (c.toNat ≤ 0x200A)) ||
  c.toNat == 0x2028 || c.toNat == 0x2029 || c.toNat == 0x202F ||
  c.toNat == 0x205F || c.toNat == 0x3000 || c.toNat == 0xFEFF

/-- JavaScript `s.trim()`: drop leading and trailing whitespace. -/
def jsTrim (s : List Char) : List Char :=
  List.rdropWhile isJsWhitespace (s.dropWhile isJsWhitespace)

/-- `sanitizeString` (validator.ts line 12): strip the control characters,
then trim. -/
def sanitizeString (s : List Char) : List Char :=
  jsTrim (s.filter (fun c => !isStrippedControl c))

def MAX_CONTENT_LENGTH : Nat := 50000

def MAX_QUERY_LENGTH : Nat := 2000

/-- `validateContent` (validator.ts line 17).  The input is assumed to be a
string (the non-string typeof branch shares the same first error). -/
def validateContent (content : List Char) : Except String (List Char) :=
  if (jsTrim content).length = 0 then
    Except.error "content must be a non-empty string"
  else if MAX_CONTENT_LENGTH < (sanitizeString content).length then
    Except.error "content exceeds maximum length of 50000 characters"
  else
    Except.ok (sanitizeString content)

/-- `validateQuery` (validator.ts line 28). -/
def validateQuery (query : List Char) : Except String (List Char) :=
  if (jsTrim query).length = 0 then
    Except.error "query must be a non-empty string"
  else if MAX_QUERY_LENGTH < (sanitizeString query).length then
    Except.error "query exceeds maximum length of 2000 characters"
  else
    Except.ok (sanitizeString query)

/-- Character class of `ID_PATTERN = /^[a-zA-Z0-9_-]{1,128}$/`. -/
def isIdChar (c : Char) : Bool :=
  (decide (65 ≤ c.toNat) && decide (c.toNat ≤ 90)) ||
  (decide (97 ≤ c.toNat) && decide (c.toNat ≤ 122)) ||
  (decide (48 ≤ c.toNat) && decide (c.toNat ≤ 57)) ||
  c == '_' || c == '-'

/-- `ID_PATTERN.test(id)`: anchored match of 1–128 characters of the class. -/
def idPatternTest (id : String) : Bool :=
  decide (1 ≤ id.length) && decide (id.length ≤ 128) && id.toList.all isIdChar

/-- `validateId` (validator.ts line 39). -/
def validateId (id : String) : Except String String :=
  if idPatternTest id then Except.ok id
  else Except.error
    "Invalid ID format. Must be 1-128 alphanumeric characters, hyphens, or underscores."

def VALID_LAYERS : List String := ["SESSION", "SEMANTIC", "CORE", "META"]

/-- `validateLayer` (validator.ts line 46): absent input passes through;
a string is upper-cased and checked against the allowed set.  Inputs are
already strings here (the zod schema enforces this); `toUpper` matches
`toUpperCase` on the ASCII layer names involved. -/
def validateLayer (layer : Option String) : Except String (Option String) :=
  match layer with
  | none => Except.ok none
  | some l =>
    if VALID_LAYERS.contains l.toUpper then Except.ok (some l.toUpper)
    else Except.error "Invalid layer. Must be one of: SESSION, SEMANTIC, CORE, META"

/-- The `layers.map(...)` body of `validateLayers` (validator.ts lines
59–63): each element runs through `validateLayer`, and a falsy result (dead
for string elements) throws; the map throws at the first failing element. -/
def validateLayersList : List String → Except String (List String)
  | [] => Except.ok []
  | l :: ls =>
    match validateLayer (some l) with
    | .error m => Except.error m
    | .ok none => Except.error "Invalid layer in array"
    | .ok (some v) =>
      match validateLayersList ls with
      | .error m => Except.error m
      | .ok vs => Except.ok (v :: vs)

/-- `validateLayers` (validator.ts line 56); the array is typed by zod, so
the non-array branch is unreachable here. -/
def validateLayers (layers : Option (List String)) :
    Except String (Option (List String)) :=
  match layers with
  | none => Except.ok none
  | some ls =>
    match validateLayersList ls with
    | .error m => Except.error m
    | .ok vs => Except.ok (some vs)

def MAX_TAG_LENGTH : Nat := 100

def MAX_TAGS : Nat := 20

/-- The `tags.map(...)` body of `validateTags` (validator.ts lines 80–86)
for one (string, per the zod schema) tag: sanitize, then the length cap,
then the emptiness check. -/
def validateTagElem (t : List Char) : Except String (List Char) :=
  if MAX_TAG_LENGTH < (sanitizeString t).length then
    Except.error "Tag exceeds 100 characters"
  else if (sanitizeString t).length = 0 then
    Except.error "Empty tags not allowed"
  else
    Except.ok (sanitizeString t)

/-- The map over all tags; throws at the first failing element. -/
def validateTagsList : List (List Char) → Except String (List (List Char))
  | [] => Except.ok []
  | t :: ts =>
    match validateTagElem t with
    | .error m => Except.error m
    | .ok c =>
      match validateTagsList ts with
      | .error m => Except.error m
      | .ok cs => Except.ok (c :: cs)

/-- `validateTags` (validator.ts line 76). -/
def validateTags (tags : Option (List (List Char))) :
    Except String (Option (List (List Char))) :=
  match tags with
  | none => Except.ok none
  | some ts =>
    if MAX_TAGS < ts.length then Except.error "Maximum 20 tags allowed"
    else
      match validateTagsList ts with
      | .error m => Except.error m
      | .ok cs => Except.ok (some cs)

/-- `validateLimit` (validator.ts line 89) on a numeric (zod-typed) input;
it never fails: out-of-range input falls back to the default 10, valid
input is clamped to 50. -/
def validateLimit (limit : Option Int) : Int :=
  match limit with
  | none => 10
  | some n => if n < 1 then 10 else min n 50

/-- `validateMaxTokens` (validator.ts line 96); never fails: below 100 (or
absent) falls back to 4000, otherwise clamped to 32000. -/
def validateMaxTokens (maxTokens : Option Int) : Int :=
  match maxTokens with
  | none => 4000
  | some n => if n < 100 then 4000 else min n 32000

/-! ## Rate limiter (src/security/rate-limiter.ts) -/

structure RateLimit where
  maxRequests : Nat
  windowMs : Int
deriving Repr, DecidableEq

/-- `RATE_LIMITS` table (rate-limiter.ts lines 8–16). -/
def RATE_LIMITS (operation : String) : Option RateLimit :=
  if operation = "remember" then some ⟨30, 60000⟩
  else if operation = "recall" then some ⟨60, 60000⟩
  else if operation = "search" then some ⟨60, 60000⟩
  else if operation = "forget" then some ⟨10, 60000⟩
  else if operation = "context" then some ⟨20, 60000⟩
  else if operation = "health" then some ⟨60, 60000⟩
  else if operation = "observe" then some ⟨30, 60000⟩
  else none

/-- The module-level `windows` Map, as an association list keyed by
operation. -/
abbrev Windows := List (String × List Int)

/-- `Map.get`. -/
def mapGet (m : Windows) (k : String) : Option (List Int) :=
  match m with
  | [] => none
  | (k', v) :: rest => if k' = k then some v else mapGet rest k

/-- `Map.set`: replace the binding if the key is present, else append. -/
def mapSet (m : Windows) (k : String) (v : List Int) : Windows :=
  match m with
  | [] => [(k, v)]
  | (k', v') :: rest => if k' = k then (k, v) :: rest else (k', v') :: mapSet rest k v

/-- `Math.ceil(ms / 1000)` on an integer millisecond count. -/
def ceilSecs (ms : Int) : Int := -(Int.ediv (-ms) 1000)

/-- The data carried by the `Error` thrown on rate-limit rejection
(rate-limiter.ts lines 34–36): the message interpolates the operation, the
budget, the window in seconds, and the ceiling-rounded retry-after. -/
structure RateLimitError where
  operation : String
  maxRequests : Nat
  windowSecs : Int
  retryAfterSecs : Int
deriving Repr, DecidableEq

/-- The thrown message `Rate limit exceeded for ...`. -/
def rateLimitMessage (e : RateLimitError) : String :=
  "Rate limit exceeded for " ++ e.operation ++ ". Max " ++
  toString e.maxRequests ++ " requests per " ++ toString e.windowSecs ++
  "s. Retry after " ++ toString e.retryAfterSecs ++ "s."

/-- `checkRateLimit` (rate-limiter.ts lines 20–41).  Returns the map as left
by the call together with the thrown error, if any.  `filter` allocates a
fresh array in the source, so on the throw path the stored map is returned
untouched; `windows.set` runs only on the success path.  `timestamps[0]!` is
modelled by `headD 0`; the non-null assertion is sound because the reject
branch requires `maxRequests ≤ length` and every configured budget is
positive.  The source's local `timestamps` (the lazily pruned window,
`windows.get(key) || []` filtered to entries younger than the window) is
factored out as `pruned`. -/
def pruned (windows : Windows) (operation : String) (now : Int) (windowMs : Int) :
    List Int :=
  ((mapGet windows operation).getD []).filter (fun t => now - t < windowMs)

def checkRateLimit (windows : Windows) (operation : String) (now : Int) :
    Windows × Option RateLimitError :=
  match RATE_LIMITS operation with
  | none => (windows, none)
  | some limit =>
    if limit.maxRequests ≤ (pruned windows operation now limit.windowMs).length then
      (windows,
       some ⟨operation, limit.maxRequests, Int.ediv limit.windowMs 1000,
             ceilSecs (limit.windowMs -
               (now - (pruned windows operation now limit.windowMs).headD 0))⟩)
    else
      (mapSet windows operation
        ((pruned windows operation now limit.windowMs) ++ [now]), none)

/-- Run a sequence of `checkRateLimit` calls, each given as (operation,
Date.now() value), from a starting map; returns the final map and the list
of calls that were not rejected. -/
def runCalls (windows : Windows) : List (String × Int) → Windows × List (String × Int)
  | [] => (windows, [])
  | (op, now) :: rest =>
    match checkRateLimit windows op now with
    | (w', none) =>
      let r := runCalls w' rest
      (r.1, (op, now) :: r.2)
    | (w', some _) => runCalls w' rest

/-- The timestamps of the non-rejected calls for one operation, running from
the empty map (the module's initial state). -/
def allowedTimes (k : String) (calls : List (String × Int)) : List Int :=
  ((runCalls [] calls).2.filter (fun c => c.1 == k)).map (fun c => c.2)

/-! ## Request executor (src/engram-api.ts) -/

/-- Outcome of one `fetch` attempt: an HTTP response (with the value of its
`retry-after` header, read only on 429), an `AbortError` from the timeout
controller, or a connection-level failure. -/
inductive AttemptOutcome where
  | response (status : Nat) (retryAfterHeader : Option String)
  | abortError
  | networkError (message : String)
deriving Repr, DecidableEq

/-- `EngramError` (engram-api.ts lines 164–173). -/
structure EngramError where
  message : String
  statusCode : Nat
  offline : Bool
deriving Repr, DecidableEq

/-- Observable trace of one `request` call: the result, how many transport
attempts ran, the `setTimeout` sleeps performed between attempts (ms), and
the `lastHealthy` field after the call. -/
structure ReqRun where
  result : Except EngramError Unit
  attempts : Nat
  sleepsMs : List Nat
  lastHealthy : Option String
deriving Repr

/-- `resp.ok`: status in the inclusive range 200–299. -/
def respOk (status : Nat) : Bool :=
  decide (200 ≤ status) && decide (status ≤ 299)

/-- The 429 message with the optional `retry-after` header interpolated; the
JS template's truthiness makes both a missing and an empty header drop the
hint clause. -/
def rateLimitedBackendMessage (retryAfterHeader : Option String) : String :=
  match retryAfterHeader with
  | some ra =>
    if ra = "" then "Rate limited by Engram backend"
    else "Rate limited by Engram backend. Retry after " ++ ra ++ "s"
  | none => "Rate limited by Engram backend"

/-- `EngramAPI.request` (engram-api.ts lines 30–100), parameterized by a
transport giving the outcome of the i-th attempt and by the ISO clock read
on success.  The success body decode is abstracted to `Unit`; generic error
messages omit statusText/body text, which no claim inspects.  Recursion is
on the retry budget, exactly as in the source; the source's `retries > 0`
tests in the 5xx and AbortError branches are resolved by the pattern on the
budget, so in the zero case a 5xx falls through to the generic error and a
timeout becomes the `Request timed out` error. -/
def requestAux (transport : Nat → AttemptOutcome) (nowIso : Nat → String) :
    Nat → Nat → Option String → ReqRun
  | 0, idx, lastHealthy =>
    match transport idx with
    | .response status retryAfterHeader =>
      if respOk status then
        { result := .ok (), attempts := 1, sleepsMs := [],
          lastHealthy := some (nowIso idx) }
      else if status == 401 || status == 403 then
        { result := .error ⟨"API key invalid or expired", status, false⟩,
          attempts := 1, sleepsMs := [], lastHealthy := lastHealthy }
      else if status == 404 then
        { result := .error ⟨"Resource not found", 404, false⟩,
          attempts := 1, sleepsMs := [], lastHealthy := lastHealthy }
      else if status == 429 then
        { result := .error ⟨rateLimitedBackendMessage retryAfterHeader, 429, false⟩,
          attempts := 1, sleepsMs := [], lastHealthy := lastHealthy }
      else
        { result := .error ⟨"Engram API error: " ++ toString status, status, false⟩,
          attempts := 1, sleepsMs := [], lastHealthy := lastHealthy }
    | .abortError =>
      { result := .error ⟨"Request timed out", 0, true⟩,
        attempts := 1, sleepsMs := [], lastHealthy := lastHealthy }
    | .networkError m =>
      { result := .error ⟨"Cannot reach Engram backend: " ++ m, 0, true⟩,
        attempts := 1, sleepsMs := [], lastHealthy := lastHealthy }
  | r + 1, idx, lastHealthy =>
    match transport idx with
    | .response status retryAfterHeader =>
      if respOk status then
        { result := .ok (), attempts := 1, sleepsMs := [],
          lastHealthy := some (nowIso idx) }
      else if status == 401 || status == 403 then
        { result := .error ⟨"API key invalid or expired", status, false⟩,
          attempts := 1, sleepsMs := [], lastHealthy := lastHealthy }
      else if status == 404 then
        { result := .error ⟨"Resource not found", 404, false⟩,
          attempts := 1, sleepsMs := [], lastHealthy := lastHealthy }
      else if status == 429 then
        { result := .error ⟨rateLimitedBackendMessage retryAfterHeader, 429, false⟩,
          attempts := 1, sleepsMs := [], lastHealthy := lastHealthy }
      else if 500 ≤ status then
        let rest := requestAux transport nowIso r (idx + 1) lastHealthy
        { result := rest.result, attempts := rest.attempts + 1,
          sleepsMs := 1000 :: rest.sleepsMs, lastHealthy := rest.lastHealthy }
      else
        { result := .error ⟨"Engram API error: " ++ toString status, status, false⟩,
          attempts := 1, sleepsMs := [], lastHealthy := lastHealthy }
    | .abortError =>
      let rest := requestAux transport nowIso r (idx + 1) lastHealthy
      { result := rest.result, attempts := rest.attempts + 1,
        sleepsMs := rest.sleepsMs, lastHealthy := rest.lastHealthy }
    | .networkError m =>
      { result := .error ⟨"Cannot reach Engram backend: " ++ m, 0, true⟩,
        attempts := 1, sleepsMs := [], lastHealthy := lastHealthy }

/-- One logical `request` with the configured `maxRetries`, starting with no
recorded healthy timestamp. -/
def request (transport : Nat → AttemptOutcome) (nowIso : Nat → String)
    (maxRetries : Nat) : ReqRun :=
  requestAux transport nowIso maxRetries 0 none

/-- A 5xx response outcome (the only response class the executor retries). -/
def is5xxOutcome : AttemptOutcome → Bool
  | .response s _ => decide (500 ≤ s)
  | _ => false

/-- An outcome the executor may retry after: a 5xx response or a timeout. -/
def retryableOutcome : AttemptOutcome → Bool
  | .response s _ => decide (500 ≤ s)
  | .abortError => true
  | .networkError _ => false

/-! ## Tool handler error path (src/index.ts) -/

/-- What the handler's catch receives: an `EngramError`, a plain `Error`
(rate limiter / validators throw these), or a non-Error value. -/
inductive Caught where
  | engramErr (e : EngramError)
  | plainErr (message : String)
  | nonError
deriving Repr

/-- One MCP tool result: `{content: [{type:'text', text}], isError}`. -/
structure ToolResult where
  text : String
  isError : Bool
deriving Repr, DecidableEq

/-- `handleError` (index.ts lines 46–63).  `lastHealthy` is
`api.getLastHealthy()`; the JS template's truthiness test makes both `null`
and the empty string drop the "Last seen" clause.  The source's
`err.message.startsWith('Rate limit')` is the list-level isPrefixOf test. -/
def handleError (lastHealthy : Option String) (err : Caught) (operation : String) :
    ToolResult :=
  match err with
  | .engramErr e =>
    if e.offline then
      ⟨"Memory " ++ operation ++ " unavailable — cannot reach Engram backend." ++
        (match lastHealthy with
         | some t => if t = "" then "" else " Last seen: " ++ t
         | none => ""), true⟩
    else ⟨e.message, true⟩
  | .plainErr m =>
    if ("Rate limit".toList).isPrefixOf m.toList then ⟨m, true⟩
    else ⟨"Validation error: " ++ m, true⟩
  | .nonError => ⟨"Unexpected error during " ++ operation, true⟩

/-- The shared pre-network shape of every tool handler's try block
(index.ts): `checkRateLimit(op)` first; if it throws, the catch routes the
thrown rate-limit Error through `handleError`; otherwise the handler's
validator chain runs, and its throw is routed through `handleError` too;
only then would the network be touched.  `handleError` is called with no
prior healthy timestamp (none of these paths reach the API).  Returns the
rate-limiter map as left by the invocation together with either the error
ToolResult or the validated arguments. -/
def toolPipeline {α : Type} (op errName : String) (validation : Except String α)
    (windows : Windows) (now : Int) : Windows × Except ToolResult α :=
  match checkRateLimit windows op now with
  | (w', some e) =>
    (w', Except.error (handleError none (.plainErr (rateLimitMessage e)) errName))
  | (w', none) =>
    match validation with
    | .error m => (w', Except.error (handleError none (.plainErr m) errName))
    | .ok v => (w', Except.ok v)

/-- The `engram_remember` handler's validator chain (index.ts lines 80–82):
`validateContent`, then `validateLayer`, then `validateTags`
(`args.importance` is forwarded without a validator call). -/
def rememberValidate (content : List Char) (layer : Option String)
    (tags : Option (List (List Char))) :
    Except String (List Char × Option String × Option (List (List Char))) :=
  match validateContent content with
  | .error m => Except.error m
  | .ok c =>
    match validateLayer layer with
    | .error m => Except.error m
    | .ok l =>
      match validateTags tags with
      | .error m => Except.error m
      | .ok t => Except.ok (c, l, t)

/-- The `engram_recall` handler's validator chain (index.ts lines 111–114):
`validateQuery`, `validateLayers`, `validateLimit` (total), `validateTags`. -/
def recallValidate (query : List Char) (layers : Option (List String))
    (limit : Option Int) (tags : Option (List (List Char))) :
    Except String
      (List Char × Option (List String) × Int × Option (List (List Char))) :=
  match validateQuery query with
  | .error m => Except.error m
  | .ok q =>
    match validateLayers layers with
    | .error m => Except.error m
    | .ok ls =>
      match validateTags tags with
      | .error m => Except.error m
      | .ok ts => Except.ok (q, ls, validateLimit limit, ts)

/-- The `engram_remember` handler (index.ts lines 77–97) up to the network:
`checkRateLimit('remember')` first, then the validator chain; errors routed
through `handleError(err, 'storage')`. -/
def rememberPipeline (windows : Windows) (content : List Char)
    (layer : Option String) (tags : Option (List (List Char))) (now : Int) :
    Windows ×
      Except ToolResult (List Char × Option String × Option (List (List Char))) :=
  toolPipeline "remember" "storage" (rememberValidate content layer tags)
    windows now

/-- The `engram_recall` handler (index.ts lines 108–140) up to the network:
`checkRateLimit('recall')` first, then the validator chain; errors routed
through `handleError(err, 'recall')`. -/
def recallPipeline (windows : Windows) (query : List Char)
    (layers : Option (List String)) (limit : Option Int)
    (tags : Option (List (List Char))) (now : Int) :
    Windows ×
      Except ToolResult
        (List Char × Option (List String) × Int × Option (List (List Char))) :=
  toolPipeline "recall" "recall" (recallValidate query layers limit tags)
    windows now

/-- The `engram_search` handler (index.ts lines 150–164) up to the network:
`checkRateLimit('search')` first, then `validateQuery`; errors routed
through `handleError(err, 'search')`. -/
def searchPipeline (windows : Windows) (query : List Char) (now : Int) :
    Windows × Except ToolResult (List Char) :=
  toolPipeline "search" "search" (validateQuery query) windows now

/-- The `engram_forget` handler (index.ts lines 173–184) up to the network:
`checkRateLimit('forget')` first, then `validateId`; errors routed through
`handleError(err, 'deletion')`. -/
def forgetPipeline (windows : Windows) (memoryId : String) (now : Int) :
    Windows × Except ToolResult String :=
  toolPipeline "forget" "deletion" (validateId memoryId) windows now

/-- The `engram_context` handler (index.ts lines 194–210) up to the network:
`checkRateLimit('context')` first, then `validateMaxTokens`, which is total
(out-of-range input falls back to the default instead of failing); errors
routed through `handleError(err, 'context generation')`. -/
def contextPipeline (windows : Windows) (maxTokens : Option Int) (now : Int) :
    Windows × Except ToolResult Int :=
  toolPipeline "context" "context generation"
    (Except.ok (validateMaxTokens maxTokens)) windows now

/-- The `engram_observe` handler (index.ts lines 220–237) up to the network:
`checkRateLimit('observe')` first, then `validateContent`; errors routed
through `handleError(err, 'observation')`. -/
def observePipeline (windows : Windows) (content : List Char) (now : Int) :
    Windows × Except ToolResult (List Char) :=
  toolPipeline "observe" "observation" (validateContent content) windows now

/-! ## Helper lemmas -/

theorem mapGet_mapSet_self (m : Windows) (k : String) (v : List Int) :
    mapGet (mapSet m k v) k = some v := by
  induction m with
  | nil => simp [mapGet, mapSet]
  | cons hd tl ih =>
    obtain ⟨a, b⟩ := hd
    by_cases h : a = k
    · subst h
      simp [mapGet, mapSet]
    · simp [mapGet, mapSet, h, ih]

theorem mapGet_mapSet_ne (m : Windows) (k k' : String) (v : List Int)
    (h : k' ≠ k) : mapGet (mapSet m k v) k' = mapGet m k' := by
  induction m with
  | nil => simp [mapGet, mapSet, Ne.symm h]
  | cons hd tl ih =>
    obtain ⟨a, b⟩ := hd
    by_cases ha : a = k
    · subst ha
      simp [mapGet, mapSet, Ne.symm h]
    · simp [mapGet, mapSet, ha, ih]

theorem checkRateLimit_error_windows (w : Windows) (op : String) (now : Int)
    (h : ((checkRateLimit w op now).2).isSome = true) :
    (checkRateLimit w op now).1 = w := by
  rcases hR : RATE_LIMITS op with _ | limit
  · unfold checkRateLimit
    rw [hR]
  · unfold checkRateLimit at h ⊢
    rw [hR] at h ⊢
    dsimp only at h ⊢
    split at h
    next hlen => rw [if_pos hlen]
    next hlen => simp at h

theorem checkRateLimit_other_key (w : Windows) (op k : String) (now : Int)
    (h : op ≠ k) : mapGet (checkRateLimit w op now).1 k = mapGet w k := by
  rcases hR : RATE_LIMITS op with _ | limit
  · unfold checkRateLimit
    rw [hR]
  · unfold checkRateLimit
    rw [hR]
    dsimp only
    split
    · rfl
    · exact mapGet_mapSet_ne w op k _ (fun he => h he.symm)

theorem ceilSecs_pos {ms : Int} (h : 0 < ms) : 0 < ceilSecs ms := by
  unfold ceilSecs
  have h1 : (-ms) ≤ -1 := by omega
  have h2 : Int.ediv (-ms) 1000 ≤ Int.ediv (-1) 1000 :=
    Int.ediv_le_ediv (by norm_num) h1
  have h3 : Int.ediv (-1) 1000 = -1 := by decide
  omega

theorem ceilSecs_le_sixty {ms : Int} (h : ms ≤ 60000) : ceilSecs ms ≤ 60 := by
  unfold ceilSecs
  have h1 : (-60000 : Int) ≤ -ms := by omega
  have h2 : Int.ediv (-60000) 1000 ≤ Int.ediv (-ms) 1000 :=
    Int.ediv_le_ediv (by norm_num) h1
  have h3 : Int.ediv (-60000) 1000 = -60 := by decide
  omega

theorem jsTrim_sublist (l : List Char) : (jsTrim l).Sublist l :=
  (( List.rdropWhile_prefix isJsWhitespace _).sublist).trans
    ((List.dropWhile_suffix isJsWhitespace).sublist)

theorem dropWhile_jsTrim (l : List Char) :
    (jsTrim l).dropWhile isJsWhitespace = jsTrim l := by
  unfold jsTrim
  obtain ⟨t, ht⟩ := List.rdropWhile_prefix isJsWhitespace
    (l.dropWhile isJsWhitespace)
  rcases hrd : List.rdropWhile isJsWhitespace (l.dropWhile isJsWhitespace) with
    _ | ⟨a, as⟩
  · simp
  · rw [hrd] at ht
    have hhd := List.head?_dropWhile_not isJsWhitespace l
    rw [← ht] at hhd
    simp only [List.cons_append, List.head?_cons] at hhd
    rw [List.dropWhile_cons, if_neg (by simp [hhd])]

theorem jsTrim_idem (l : List Char) : jsTrim (jsTrim l) = jsTrim l := by
  conv_lhs => rw [jsTrim, dropWhile_jsTrim]
  rw [jsTrim]
  exact List.rdropWhile_idempotent _ _

/-- C9: `sanitizeString` is idempotent. -/
theorem C9_sanitize_idempotent (s : List Char) :
    sanitizeString (sanitizeString s) = sanitizeString s := by
  unfold sanitizeString
  have hfilter :
      (jsTrim (s.filter (fun c => !isStrippedControl c))).filter
          (fun c => !isStrippedControl c) =
        jsTrim (s.filter (fun c => !isStrippedControl c)) := by
    apply List.filter_eq_self.mpr
    intro a ha
    have ha' : a ∈ s.filter (fun c => !isStrippedControl c) :=
      (jsTrim_sublist _).subset ha
    exact (List.mem_filter.mp ha').2
  rw [hfilter, jsTrim_idem]

/-! ## C4: validator output emptiness -/

/-- C4 counterexample: the one-character input `"\x00"` passes the raw-trim
emptiness check (NUL is not JavaScript whitespace), is then sanitized to the
empty string, and is accepted — so an accepted input's sanitized value can
have length 0. -/
theorem C4_counterexample :
    validateContent [Char.ofNat 0] = Except.ok [] ∧
    ([] : List Char).length = 0 := by
  exact ⟨rfl, rfl⟩

/-- C4 amended: what `validateContent`/`validateQuery` actually guarantee on
acceptance is that the raw input is non-empty after JS-trimming, and that the
returned value is the sanitized input (which may itself be empty). -/
theorem C4_accepted_raw_nonempty (s v : List Char) :
    (validateContent s = Except.ok v →
      0 < (jsTrim s).length ∧ v = sanitizeString s) ∧
    (validateQuery s = Except.ok v →
      0 < (jsTrim s).length ∧ v = sanitizeString s) := by
  constructor
  · intro h
    unfold validateContent at h
    split at h
    · exact absurd h (by simp)
    · split at h
      · exact absurd h (by simp)
      · next h1 _ =>
          exact ⟨Nat.pos_of_ne_zero h1, (Except.ok.inj h).symm⟩
  · intro h
    unfold validateQuery at h
    split at h
    · exact absurd h (by simp)
    · split at h
      · exact absurd h (by simp)
      · next h1 _ =>
          exact ⟨Nat.pos_of_ne_zero h1, (Except.ok.inj h).symm⟩

/-- C4 witness: the amended theorem applied to the accepted input "hi". -/
theorem C4_witness :
    0 < (jsTrim "hi".toList).length ∧ "hi".toList = sanitizeString "hi".toList :=
  (C4_accepted_raw_nonempty "hi".toList "hi".toList).1 (by rfl)

/-! ## C2: order of rate limiting and validation in the handlers -/

/-- C2 counterexample: invoking the `engram_forget` handler from the fresh
rate-limiter state with the invalid id "bad/id" fails validation, yet the
forget window has recorded the invocation's timestamp — the rate-limit slot
was consumed, because `checkRateLimit` runs before `validateId`. -/
theorem C2_counterexample :
    (forgetPipeline [] "bad/id" 0).2 =
      Except.error
        ⟨"Validation error: Invalid ID format. Must be 1-128 alphanumeric characters, hyphens, or underscores.",
         true⟩ ∧
    mapGet (forgetPipeline [] "bad/id" 0).1 "forget" = some [0] := by
  exact ⟨rfl, rfl⟩

/-- The thrown rate-limiter message always starts with "Rate limit". -/
theorem rateLimitMessage_isPrefix (e : RateLimitError) :
    (("Rate limit".toList).isPrefixOf (rateLimitMessage e).toList) = true := by
  apply List.isPrefixOf_iff_prefix.mpr
  refine ⟨(" exceeded for ".toList ++ e.operation.toList ++ ". Max ".toList ++
    (toString e.maxRequests).toList ++ " requests per ".toList ++
    (toString e.windowSecs).toList ++ "s. Retry after ".toList ++
    (toString e.retryAfterSecs).toList ++ "s.".toList), ?_⟩
  unfold rateLimitMessage
  simp only [String.toList, String.data_append, List.append_assoc]
  rw [← List.append_assoc]
  rfl

/-- `handleError` passes a rate-limiter message through unchanged. -/
theorem handleError_rateLimitMsg (e : RateLimitError) (opName : String) :
    handleError none (.plainErr (rateLimitMessage e)) opName =
      ⟨rateLimitMessage e, true⟩ := by
  unfold handleError
  dsimp only
  rw [if_pos (rateLimitMessage_isPrefix e)]

/-- `handleError` wraps any other plain Error message as a validation
error. -/
theorem handleError_validationMsg (m opName : String)
    (hm : (("Rate limit".toList).isPrefixOf m.toList) = false) :
    handleError none (.plainErr m) opName =
      ⟨"Validation error: " ++ m, true⟩ := by
  unfold handleError
  dsimp only
  rw [if_neg (by
    intro hp
    rw [hp] at hm
    exact Bool.noConfusion hm)]

/-- An admitted `checkRateLimit` call records the current timestamp: the
stored window becomes the pruned list with `now` appended. -/
theorem checkRateLimit_admit_state (w : Windows) (op : String) (now : Int)
    (w' : Windows) (limit : RateLimit) (hk : RATE_LIMITS op = some limit)
    (hc : checkRateLimit w op now = (w', none)) :
    mapGet w' op = some ((pruned w op now limit.windowMs) ++ [now]) := by
  have hw' : w' = mapSet w op ((pruned w op now limit.windowMs) ++ [now]) := by
    unfold checkRateLimit at hc
    rw [hk] at hc
    dsimp only at hc
    split at hc
    · exact absurd (congrArg Prod.snd hc) (by simp)
    · exact (congrArg Prod.fst hc).symm
  rw [hw']
  exact mapGet_mapSet_self w op _

/-- A rejected rate check short-circuits the pipeline: validation never
runs, the stored state is untouched, and the thrown message is surfaced. -/
theorem toolPipeline_reject {α : Type} (op errName : String)
    (v : Except String α) (w : Windows) (now : Int) (w' : Windows)
    (e : RateLimitError) (hc : checkRateLimit w op now = (w', some e)) :
    toolPipeline op errName v w now =
      (w, Except.error ⟨rateLimitMessage e, true⟩) := by
  have hw' : w' = w := by
    have h := checkRateLimit_error_windows w op now (by rw [hc]; rfl)
    rw [hc] at h
    exact h
  subst hw'
  unfold toolPipeline
  rw [hc]
  dsimp only
  rw [handleError_rateLimitMsg]

/-- An admitted rate check followed by a validation failure surfaces the
validation error with the post-admission state. -/
theorem toolPipeline_validation_error {α : Type} (op errName : String)
    (v : Except String α) (w : Windows) (now : Int) (w' : Windows) (m : String)
    (hc : checkRateLimit w op now = (w', none)) (hv : v = Except.error m)
    (hm : (("Rate limit".toList).isPrefixOf m.toList) = false) :
    toolPipeline op errName v w now =
      (w', Except.error ⟨"Validation error: " ++ m, true⟩) := by
  unfold toolPipeline
  rw [hc, hv]
  dsimp only
  rw [handleError_validationMsg m errName hm]

/-- An admitted rate check followed by successful validation yields the
validated value with the post-admission state. -/
theorem toolPipeline_admit_ok {α : Type} (op errName : String) (x : α)
    (w : Windows) (now : Int) (w' : Windows)
    (hc : checkRateLimit w op now = (w', none)) :
    toolPipeline op errName (Except.ok x) w now = (w', Except.ok x) := by
  unfold toolPipeline
  rw [hc]

/-- No `validateContent` error message starts with "Rate limit". -/
theorem validateContent_error_msg (c : List Char) (m : String)
    (h : validateContent c = Except.error m) :
    (("Rate limit".toList).isPrefixOf m.toList) = false := by
  unfold validateContent at h
  split at h
  · injection h with h'
    subst h'
    decide
  · split at h
    · injection h with h'
      subst h'
      decide
    · exact absurd h (by simp)

/-- No `validateQuery` error message starts with "Rate limit". -/
theorem validateQuery_error_msg (q : List Char) (m : String)
    (h : validateQuery q = Except.error m) :
    (("Rate limit".toList).isPrefixOf m.toList) = false := by
  unfold validateQuery at h
  split at h
  · injection h with h'
    subst h'
    decide
  · split at h
    · injection h with h'
      subst h'
      decide
    · exact absurd h (by simp)

/-- No `validateId` error message starts with "Rate limit". -/
theorem validateId_error_msg (id m : String)
    (h : validateId id = Except.error m) :
    (("Rate limit".toList).isPrefixOf m.toList) = false := by
  unfold validateId at h
  split at h
  · exact absurd h (by simp)
  · injection h with h'
    subst h'
    decide

/-- No `validateLayer` error message starts with "Rate limit". -/
theorem validateLayer_error_msg (layer : Option String) (m : String)
    (h : validateLayer layer = Except.error m) :
    (("Rate limit".toList).isPrefixOf m.toList) = false := by
  cases layer with
  | none => simp [validateLayer] at h
  | some l =>
    simp only [validateLayer] at h
    split at h
    · exact absurd h (by simp)
    · injection h with h'
      subst h'
      decide

/-- No `validateLayersList` error message starts with "Rate limit". -/
theorem validateLayersList_error_msg : ∀ (ls : List String) (m : String),
    validateLayersList ls = Except.error m →
    (("Rate limit".toList).isPrefixOf m.toList) = false := by
  intro ls
  induction ls with
  | nil =>
    intro m h
    simp [validateLayersList] at h
  | cons l ls ih =>
    intro m h
    unfold validateLayersList at h
    cases hl : validateLayer (some l) with
    | error m1 =>
      rw [hl] at h
      injection h with h'
      subst h'
      exact validateLayer_error_msg (some l) _ hl
    | ok v =>
      rw [hl] at h
      cases v with
      | none =>
        injection h with h'
        subst h'
        decide
      | some u =>
        cases hr : validateLayersList ls with
        | error m2 =>
          rw [hr] at h
          injection h with h'
          subst h'
          exact ih _ hr
        | ok vs =>
          rw [hr] at h
          exact Except.noConfusion h

/-- No `validateLayers` error message starts with "Rate limit". -/
theorem validateLayers_error_msg (layers : Option (List String)) (m : String)
    (h : validateLayers layers = Except.error m) :
    (("Rate limit".toList).isPrefixOf m.toList) = false := by
  cases layers with
  | none => simp [validateLayers] at h
  | some ls =>
    simp only [validateLayers] at h
    cases hr : validateLayersList ls with
    | error m1 =>
      rw [hr] at h
      injection h with h'
      subst h'
      exact validateLayersList_error_msg ls _ hr
    | ok vs =>
      rw [hr] at h
      exact Except.noConfusion h

/-- No `validateTagElem` error message starts with "Rate limit". -/
theorem validateTagElem_error_msg (t : List Char) (m : String)
    (h : validateTagElem t = Except.error m) :
    (("Rate limit".toList).isPrefixOf m.toList) = false := by
  unfold validateTagElem at h
  split at h
  · injection h with h'
    subst h'
    decide
  · split at h
    · injection h with h'
      subst h'
      decide
    · exact absurd h (by simp)

/-- No `validateTagsList` error message starts with "Rate limit". -/
theorem validateTagsList_error_msg : ∀ (ts : List (List Char)) (m : String),
    validateTagsList ts = Except.error m →
    (("Rate limit".toList).isPrefixOf m.toList) = false := by
  intro ts
  induction ts with
  | nil =>
    intro m h
    simp [validateTagsList] at h
  | cons t ts ih =>
    intro m h
    unfold validateTagsList at h
    cases he : validateTagElem t with
    | error m1 =>
      rw [he] at h
      injection h with h'
      subst h'
      exact validateTagElem_error_msg t _ he
    | ok c =>
      rw [he] at h
      cases hr : validateTagsList ts with
      | error m2 =>
        rw [hr] at h
        injection h with h'
        subst h'
        exact ih _ hr
      | ok cs =>
        rw [hr] at h
        exact Except.noConfusion h

/-- No `validateTags` error message starts with "Rate limit". -/
theorem validateTags_error_msg (tags : Option (List (List Char))) (m : String)
    (h : validateTags tags = Except.error m) :
    (("Rate limit".toList).isPrefixOf m.toList) = false := by
  cases tags with
  | none => simp [validateTags] at h
  | some ts =>
    simp only [validateTags] at h
    split at h
    · injection h with h'
      subst h'
      decide
    · cases hr : validateTagsList ts with
      | error m1 =>
        rw [hr] at h
        injection h with h'
        subst h'
        exact validateTagsList_error_msg ts _ hr
      | ok cs =>
        rw [hr] at h
        exact Except.noConfusion h

/-- No error message of the `engram_remember` validator chain starts with
"Rate limit". -/
theorem rememberValidate_error_msg (c : List Char) (l : Option String)
    (t : Option (List (List Char))) (m : String)
    (h : rememberValidate c l t = Except.error m) :
    (("Rate limit".toList).isPrefixOf m.toList) = false := by
  unfold rememberValidate at h
  cases h1 : validateContent c with
  | error m1 =>
    rw [h1] at h
    injection h with h'
    subst h'
    exact validateContent_error_msg c _ h1
  | ok c1 =>
    rw [h1] at h
    cases h2 : validateLayer l with
    | error m2 =>
      rw [h2] at h
      injection h with h'
      subst h'
      exact validateLayer_error_msg l _ h2
    | ok l1 =>
      rw [h2] at h
      cases h3 : validateTags t with
      | error m3 =>
        rw [h3] at h
        injection h with h'
        subst h'
        exact validateTags_error_msg t _ h3
      | ok t1 =>
        rw [h3] at h
        exact Except.noConfusion h

/-- No error message of the `engram_recall` validator chain starts with
"Rate limit". -/
theorem recallValidate_error_msg (q : List Char) (ls : Option (List String))
    (li : Option Int) (t : Option (List (List Char))) (m : String)
    (h : recallValidate q ls li t = Except.error m) :
    (("Rate limit".toList).isPrefixOf m.toList) = false := by
  unfold recallValidate at h
  cases h1 : validateQuery q with
  | error m1 =>
    rw [h1] at h
    injection h with h'
    subst h'
    exact validateQuery_error_msg q _ h1
  | ok q1 =>
    rw [h1] at h
    cases h2 : validateLayers ls with
    | error m2 =>
      rw [h2] at h
      injection h with h'
      subst h'
      exact validateLayers_error_msg ls _ h2
    | ok ls1 =>
      rw [h2] at h
      cases h3 : validateTags t with
      | error m3 =>
        rw [h3] at h
        injection h with h'
        subst h'
        exact validateTags_error_msg t _ h3
      | ok t1 =>
        rw [h3] at h
        exact Except.noConfusion h

/-- C2 amended: in every tool handler the RateLimiter check runs first and
the Validator second.  For each of the six operations: when the rate check
admits the invocation, a validation failure still leaves the current
timestamp recorded in that operation's window (the slot is consumed), and
when the rate check rejects, validation is never reached and the stored
state is untouched.  The `engram_context` validator is total, so its
admitted case returns the clamped token budget with the slot likewise
already consumed. -/
theorem C2_rateLimiter_runs_first (w : Windows) (now : Int) :
    (∀ content layer tags w' m,
      checkRateLimit w "remember" now = (w', none) →
      rememberValidate content layer tags = Except.error m →
      rememberPipeline w content layer tags now =
        (w', Except.error ⟨"Validation error: " ++ m, true⟩) ∧
      mapGet w' "remember" = some ((pruned w "remember" now 60000) ++ [now])) ∧
    (∀ content layer tags w' e,
      checkRateLimit w "remember" now = (w', some e) →
      rememberPipeline w content layer tags now =
        (w, Except.error ⟨rateLimitMessage e, true⟩)) ∧
    (∀ query layers limit tags w' m,
      checkRateLimit w "recall" now = (w', none) →
      recallValidate query layers limit tags = Except.error m →
      recallPipeline w query layers limit tags now =
        (w', Except.error ⟨"Validation error: " ++ m, true⟩) ∧
      mapGet w' "recall" = some ((pruned w "recall" now 60000) ++ [now])) ∧
    (∀ query layers limit tags w' e,
      checkRateLimit w "recall" now = (w', some e) →
      recallPipeline w query layers limit tags now =
        (w, Except.error ⟨rateLimitMessage e, true⟩)) ∧
    (∀ query w' m,
      checkRateLimit w "search" now = (w', none) →
      validateQuery query = Except.error m →
      searchPipeline w query now =
        (w', Except.error ⟨"Validation error: " ++ m, true⟩) ∧
      mapGet w' "search" = some ((pruned w "search" now 60000) ++ [now])) ∧
    (∀ query w' e,
      checkRateLimit w "search" now = (w', some e) →
      searchPipeline w query now =
        (w, Except.error ⟨rateLimitMessage e, true⟩)) ∧
    (∀ id w' m,
      checkRateLimit w "forget" now = (w', none) →
      validateId id = Except.error m →
      forgetPipeline w id now =
        (w', Except.error ⟨"Validation error: " ++ m, true⟩) ∧
      mapGet w' "forget" = some ((pruned w "forget" now 60000) ++ [now])) ∧
    (∀ id w' e,
      checkRateLimit w "forget" now = (w', some e) →
      forgetPipeline w id now = (w, Except.error ⟨rateLimitMessage e, true⟩)) ∧
    (∀ maxTokens w',
      checkRateLimit w "context" now = (w', none) →
      contextPipeline w maxTokens now =
        (w', Except.ok (validateMaxTokens maxTokens)) ∧
      mapGet w' "context" = some ((pruned w "context" now 60000) ++ [now])) ∧
    (∀ maxTokens w' e,
      checkRateLimit w "context" now = (w', some e) →
      contextPipeline w maxTokens now =
        (w, Except.error ⟨rateLimitMessage e, true⟩)) ∧
    (∀ content w' m,
      checkRateLimit w "observe" now = (w', none) →
      validateContent content = Except.error m →
      observePipeline w content now =
        (w', Except.error ⟨"Validation error: " ++ m, true⟩) ∧
      mapGet w' "observe" = some ((pruned w "observe" now 60000) ++ [now])) ∧
    (∀ content w' e,
      checkRateLimit w "observe" now = (w', some e) →
      observePipeline w content now =
        (w, Except.error ⟨rateLimitMessage e, true⟩)) := by
  refine ⟨?_, ?_, ?_, ?_, ?_, ?_, ?_, ?_, ?_, ?_, ?_, ?_⟩
  · intro content layer tags w' m hc hv
    exact ⟨toolPipeline_validation_error "remember" "storage" _ w now w' m hc hv
        (rememberValidate_error_msg content layer tags m hv),
      checkRateLimit_admit_state w "remember" now w' ⟨30, 60000⟩ rfl hc⟩
  · intro content layer tags w' e hc
    exact toolPipeline_reject "remember" "storage" _ w now w' e hc
  · intro query layers limit tags w' m hc hv
    exact ⟨toolPipeline_validation_error "recall" "recall" _ w now w' m hc hv
        (recallValidate_error_msg query layers limit tags m hv),
      checkRateLimit_admit_state w "recall" now w' ⟨60, 60000⟩ rfl hc⟩
  · intro query layers limit tags w' e hc
    exact toolPipeline_reject "recall" "recall" _ w now w' e hc
  · intro query w' m hc hv
    exact ⟨toolPipeline_validation_error "search" "search" _ w now w' m hc hv
        (validateQuery_error_msg query m hv),
      checkRateLimit_admit_state w "search" now w' ⟨60, 60000⟩ rfl hc⟩
  · intro query w' e hc
    exact toolPipeline_reject "search" "search" _ w now w' e hc
  · intro id w' m hc hv
    exact ⟨toolPipeline_validation_error "forget" "deletion" _ w now w' m hc hv
        (validateId_error_msg id m hv),
      checkRateLimit_admit_state w "forget" now w' ⟨10, 60000⟩ rfl hc⟩
  · intro id w' e hc
    exact toolPipeline_reject "forget" "deletion" _ w now w' e hc
  · intro maxTokens w' hc
    exact ⟨toolPipeline_admit_ok "context" "context generation" _ w now w' hc,
      checkRateLimit_admit_state w "context" now w' ⟨20, 60000⟩ rfl hc⟩
  · intro maxTokens w' e hc
    exact toolPipeline_reject "context" "context generation" _ w now w' e hc
  · intro content w' m hc hv
    exact ⟨toolPipeline_validation_error "observe" "observation" _ w now w' m hc
        hv (validateContent_error_msg content m hv),
      checkRateLimit_admit_state w "observe" now w' ⟨30, 60000⟩ rfl hc⟩
  · intro content w' e hc
    exact toolPipeline_reject "observe" "observation" _ w now w' e hc

/-- C2 witness: the amended theorem at concrete inputs — an admitted
`engram_remember` call whose empty content fails validation yet leaves its
timestamp recorded, and a rejected 11th `engram_forget` call that never
reaches validation. -/
theorem C2_witness :
    (rememberPipeline [] [] none none 0 =
      ([("remember", [0])],
       Except.error ⟨"Validation error: content must be a non-empty string",
         true⟩) ∧
     mapGet [("remember", [(0 : Int)])] "remember" = some [0]) ∧
    forgetPipeline [("forget", [0, 1, 2, 3, 4, 5, 6, 7, 8, 9])] "abc" 100 =
      ([("forget", [0, 1, 2, 3, 4, 5, 6, 7, 8, 9])],
       Except.error ⟨rateLimitMessage ⟨"forget", 10, 60, 60⟩, true⟩) := by
  refine ⟨(C2_rateLimiter_runs_first [] 0).1 [] none none
    [("remember", [0])] _ rfl rfl, ?_⟩
  exact (C2_rateLimiter_runs_first
    [("forget", [0, 1, 2, 3, 4, 5, 6, 7, 8, 9])] 100).2.2.2.2.2.2.2.1 "abc"
    [("forget", [0, 1, 2, 3, 4, 5, 6, 7, 8, 9])] ⟨"forget", 10, 60, 60⟩ rfl

/-! ## C10: atomicity of the stored window update -/

/-- C10: `checkRateLimit` leaves the stored map exactly as it was whenever it
throws `RateLimited` (the pruned list is not written back), and on success it
stores precisely the pruned list with the current timestamp appended, leaving
every other operation's window unchanged. -/
theorem C10_atomic_window_update (w : Windows) (op : String) (now : Int) :
    (((checkRateLimit w op now).2).isSome = true →
      ∀ k, mapGet (checkRateLimit w op now).1 k = mapGet w k) ∧
    (∀ limit, RATE_LIMITS op = some limit → (checkRateLimit w op now).2 = none →
      mapGet (checkRateLimit w op now).1 op =
        some ((pruned w op now limit.windowMs) ++ [now]) ∧
      ∀ k, k ≠ op → mapGet (checkRateLimit w op now).1 k = mapGet w k) := by
  constructor
  · intro h k
    rw [checkRateLimit_error_windows w op now h]
  · intro limit hR hnone
    unfold checkRateLimit at hnone ⊢
    rw [hR] at hnone ⊢
    dsimp only at hnone ⊢
    split at hnone
    next hlen => simp at hnone
    next hlen =>
      rw [if_neg hlen]
      exact ⟨mapGet_mapSet_self w op _,
        fun k hk => mapGet_mapSet_ne w op k _ hk⟩

/-- C10 witness: the theorem applied at a rejecting call (11th forget against
a full window: state untouched) and at an admitting call (timestamp appended). -/
theorem C10_witness :
    mapGet (checkRateLimit [("forget", [0, 1, 2, 3, 4, 5, 6, 7, 8, 9])] "forget" 100).1
        "remember" =
      mapGet [("forget", [(0 : Int), 1, 2, 3, 4, 5, 6, 7, 8, 9])] "remember" ∧
    mapGet (checkRateLimit [("forget", [(0 : Int)])] "forget" 5).1 "forget" =
      some ((pruned [("forget", [(0 : Int)])] "forget" 5 60000) ++ [5]) := by
  refine ⟨(C10_atomic_window_update [("forget", [0, 1, 2, 3, 4, 5, 6, 7, 8, 9])]
    "forget" 100).1 (by rfl) "remember", ?_⟩
  exact ((C10_atomic_window_update [("forget", [(0 : Int)])] "forget" 5).2
    ⟨10, 60000⟩ rfl (by rfl)).1

/-! ## C8: rejected calls carry the computed retry-after -/

/-- Every operation in the `RATE_LIMITS` table has a 60000 ms window. -/
theorem RATE_LIMITS_window (k : String) (limit : RateLimit)
    (h : RATE_LIMITS k = some limit) : limit.windowMs = 60000 := by
  unfold RATE_LIMITS at h
  split_ifs at h <;> injection h with h' <;> subst h' <;> rfl

/-- Every operation in the `RATE_LIMITS` table has a positive budget. -/
theorem RATE_LIMITS_max_pos (k : String) (limit : RateLimit)
    (h : RATE_LIMITS k = some limit) : 0 < limit.maxRequests := by
  unfold RATE_LIMITS at h
  split_ifs at h <;> injection h with h' <;> subst h' <;> decide

/-- C8: whenever `checkRateLimit` rejects a call for any operation in the
budget table, the carried retry-after equals the window width minus the age
of the oldest retained timestamp, ceiling-rounded to seconds; it is
positive, and as soon as the oldest retained timestamp is not in the future
— in particular for an 11th forget invocation within 60 seconds — it is at
most 60 seconds. -/
theorem C8_retry_after (w : Windows) (op : String) (now : Int)
    (e : RateLimitError) (limit : RateLimit)
    (hk : RATE_LIMITS op = some limit)
    (h : (checkRateLimit w op now).2 = some e) :
    ∃ t0 rest, pruned w op now limit.windowMs = t0 :: rest ∧
      e.retryAfterSecs = ceilSecs (limit.windowMs - (now - t0)) ∧
      0 < e.retryAfterSecs ∧
      (t0 ≤ now → e.retryAfterSecs ≤ 60) := by
  have hW : limit.windowMs = 60000 := RATE_LIMITS_window op limit hk
  have hmax : 0 < limit.maxRequests := RATE_LIMITS_max_pos op limit hk
  unfold checkRateLimit at h
  rw [hk] at h
  dsimp only at h
  split at h
  case isFalse hlen => simp at h
  case isTrue hlen =>
    have he : e = ⟨op, limit.maxRequests, Int.ediv limit.windowMs 1000,
        ceilSecs (limit.windowMs -
          (now - (pruned w op now limit.windowMs).headD 0))⟩ :=
      (Option.some.inj h).symm
    rcases hp : pruned w op now limit.windowMs with _ | ⟨t0, rest⟩
    · rw [hp] at hlen
      simp at hlen
      omega
    · have ht0 : t0 ∈ pruned w op now limit.windowMs := by
        rw [hp]
        exact List.mem_cons_self t0 rest
      unfold pruned at ht0
      have hlt : now - t0 < limit.windowMs := by
        simpa using (List.mem_filter.mp ht0).2
      have heq : e.retryAfterSecs = ceilSecs (limit.windowMs - (now - t0)) := by
        rw [he, hp]
        rfl
      refine ⟨t0, rest, rfl, heq, ?_, ?_⟩
      · rw [heq]
        exact ceilSecs_pos (by omega)
      · intro hle
        rw [heq, hW]
        rw [hW] at hlt
        exact ceilSecs_le_sixty (by omega)

/-- C8 witness: the 11th forget call at t = 30000 ms against a window filled
at t = 0..9 ms is rejected with retry-after 30 s (positive and ≤ 60 s). -/
theorem C8_witness :
    ∃ t0 rest,
      pruned [("forget", [(0 : Int), 1, 2, 3, 4, 5, 6, 7, 8, 9])] "forget" 30000 60000 =
        t0 :: rest ∧
      (⟨"forget", 10, 60, 30⟩ : RateLimitError).retryAfterSecs =
        ceilSecs (60000 - (30000 - t0)) ∧
      0 < (⟨"forget", 10, 60, 30⟩ : RateLimitError).retryAfterSecs ∧
      (t0 ≤ 30000 → (⟨"forget", 10, 60, 30⟩ : RateLimitError).retryAfterSecs ≤ 60) :=
  C8_retry_after [("forget", [(0 : Int), 1, 2, 3, 4, 5, 6, 7, 8, 9])] "forget"
    30000 ⟨"forget", 10, 60, 30⟩ ⟨10, 60000⟩ rfl (by rfl)

/-! ## C1/C5/C6/C7: request executor behaviour -/

/-- A fixed ISO clock used by the concrete transport scenarios. -/
def isoConst : Nat → String := fun _ => "2026-01-01T00:00:00.000Z"

/-- Transport double for C6: two 5xx failures, then success. -/
def c6Transport : Nat → AttemptOutcome := fun i =>
  if i < 2 then .response 500 none else .response 200 none

/-- Transport double for C5: a timeout on the first attempt, then success. -/
def c5Transport : Nat → AttemptOutcome := fun i =>
  if i == 0 then .abortError else .response 200 none

/-- C1 counterexample: with a retry budget of 2 and every attempt timing out,
the request resolves to the `Request timed out` error — but that error
carries `offline = true`, and `handleError` therefore renders the
degraded-mode backend-unreachable message for it.  The Offline
classification is thus produced for exhausted timeouts, not only for
connection-level failures. -/
theorem C1_counterexample :
    (request (fun _ => .abortError) isoConst 2).result =
      Except.error ⟨"Request timed out", 0, true⟩ ∧
    (⟨"Request timed out", 0, true⟩ : EngramError).offline = true ∧
    (handleError none (.engramErr ⟨"Request timed out", 0, true⟩) "storage").text =
      "Memory storage unavailable — cannot reach Engram backend." := by
  exact ⟨rfl, rfl, rfl⟩

/-- C1 amended: once the retry budget is exhausted, a request whose attempts
all timed out resolves to the error with message `Request timed out` and
status 0 after exactly retries + 1 attempts and with no waits — but this
error carries `offline = true`, exactly like a connection-level failure, so
the degraded-mode message is produced for it too; the timeout error is
distinguishable from the connection-failure error only by its message text. -/
theorem C1_exhausted_timeout (nowIso : Nat → String) (retries idx : Nat)
    (lh : Option String) (transport : Nat → AttemptOutcome)
    (h : ∀ i, transport i = AttemptOutcome.abortError) :
    requestAux transport nowIso retries idx lh =
      { result := Except.error ⟨"Request timed out", 0, true⟩,
        attempts := retries + 1, sleepsMs := [], lastHealthy := lh } ∧
    (∀ op, handleError none (.engramErr ⟨"Request timed out", 0, true⟩) op =
      ⟨"Memory " ++ op ++ " unavailable — cannot reach Engram backend.", true⟩) ∧
    (∀ m, (⟨"Cannot reach Engram backend: " ++ m, 0, true⟩ : EngramError).offline =
      (⟨"Request timed out", 0, true⟩ : EngramError).offline) := by
  refine ⟨?_, ?_, fun m => rfl⟩
  · induction retries generalizing idx with
    | zero =>
      unfold requestAux
      rw [h idx]
    | succ r ih =>
      unfold requestAux
      rw [h idx]
      dsimp only
      rw [ih (idx + 1)]
  · intro op
    unfold handleError
    dsimp only
    rw [if_pos rfl]
    simp [String.append_empty]

/-- C1 witness: the amended theorem at the all-timeouts transport with a
budget of 2. -/
theorem C1_witness :
    requestAux (fun _ => .abortError) isoConst 2 0 none =
      { result := Except.error ⟨"Request timed out", 0, true⟩,
        attempts := 3, sleepsMs := [], lastHealthy := none } ∧
    (∀ op, handleError none (.engramErr ⟨"Request timed out", 0, true⟩) op =
      ⟨"Memory " ++ op ++ " unavailable — cannot reach Engram backend.", true⟩) ∧
    (∀ m, (⟨"Cannot reach Engram backend: " ++ m, 0, true⟩ : EngramError).offline =
      (⟨"Request timed out", 0, true⟩ : EngramError).offline) :=
  C1_exhausted_timeout isoConst 2 0 none (fun _ => .abortError) (fun _ => rfl)

/-- C5 counterexample: with a retry budget of 1, a timeout on the first
attempt and success on the second, the executor performs a retried attempt
(2 attempts in total) but performs no 1-second wait at all — timeout retries
resend immediately. -/
theorem C5_counterexample :
    (request c5Transport isoConst 1).attempts = 2 ∧
    (request c5Transport isoConst 1).sleepsMs = [] ∧
    (request c5Transport isoConst 1).result = Except.ok () := by
  exact ⟨rfl, rfl, rfl⟩

theorem not_succ_lt_one (j : Nat) : ¬ (j + 1 < 1) := by omega

/-- C5 amended: every wait the executor performs is exactly 1000 ms and waits
happen only before 5xx-triggered resends; a timeout-triggered resend happens
immediately (a run whose attempts contain no 5xx response performs no waits
at all); and every non-final attempt's outcome is retryable, i.e. retries
apply only to 5xx responses and timeouts. -/
theorem C5_retry_waits (transport : Nat → AttemptOutcome) (nowIso : Nat → String)
    (retries idx : Nat) (lh : Option String) :
    (∀ d ∈ (requestAux transport nowIso retries idx lh).sleepsMs, d = 1000) ∧
    (∀ j, j + 1 < (requestAux transport nowIso retries idx lh).attempts →
      retryableOutcome (transport (idx + j)) = true) ∧
    ((∀ j, is5xxOutcome (transport (idx + j)) = false) →
      (requestAux transport nowIso retries idx lh).sleepsMs = []) := by
  induction retries generalizing idx with
  | zero =>
    unfold requestAux
    rcases transport idx with ⟨status, hdr⟩ | _ | m <;> dsimp only
    · split_ifs <;>
        exact ⟨by simp, fun j hj => absurd hj (not_succ_lt_one j), fun _ => rfl⟩
    · exact ⟨by simp, fun j hj => absurd hj (not_succ_lt_one j), fun _ => rfl⟩
    · exact ⟨by simp, fun j hj => absurd hj (not_succ_lt_one j), fun _ => rfl⟩
  | succ r ih =>
    have hshift : ∀ j, idx + (j + 1) = (idx + 1) + j := by omega
    unfold requestAux
    rcases hout : transport idx with ⟨status, hdr⟩ | _ | m <;> dsimp only
    · split_ifs with h1 h2 h3 h4 h5
      · exact ⟨by simp, fun j hj => absurd hj (not_succ_lt_one j), fun _ => rfl⟩
      · exact ⟨by simp, fun j hj => absurd hj (not_succ_lt_one j), fun _ => rfl⟩
      · exact ⟨by simp, fun j hj => absurd hj (not_succ_lt_one j), fun _ => rfl⟩
      · exact ⟨by simp, fun j hj => absurd hj (not_succ_lt_one j), fun _ => rfl⟩
      · refine ⟨?_, ?_, ?_⟩
        · intro d hd
          rcases List.mem_cons.mp hd with hd | hd
          · exact hd
          · exact (ih (idx + 1)).1 d hd
        · intro j hj
          match j with
          | 0 =>
            rw [Nat.add_zero, hout]
            simpa [retryableOutcome] using h5
          | j' + 1 =>
            rw [hshift j']
            exact (ih (idx + 1)).2.1 j' (Nat.lt_of_succ_lt_succ hj)
        · intro hno
          exfalso
          have := hno 0
          rw [Nat.add_zero, hout] at this
          simp [is5xxOutcome, h5] at this
      · exact ⟨by simp, fun j hj => absurd hj (not_succ_lt_one j), fun _ => rfl⟩
    · refine ⟨?_, ?_, ?_⟩
      · intro d hd
        exact (ih (idx + 1)).1 d hd
      · intro j hj
        match j with
        | 0 =>
          rw [Nat.add_zero, hout]
          rfl
        | j' + 1 =>
          rw [hshift j']
          exact (ih (idx + 1)).2.1 j' (Nat.lt_of_succ_lt_succ hj)
      · intro hno
        exact (ih (idx + 1)).2.2 (fun j => by
          have := hno (j + 1)
          rwa [hshift j] at this)
    · exact ⟨by simp, fun j hj => absurd hj (not_succ_lt_one j), fun _ => rfl⟩

/-- C5 witness: the amended theorem applied at the 5xx scenario (a non-final
attempt is retryable) and at the no-5xx timeout scenario (no waits at all). -/
theorem C5_witness :
    retryableOutcome (c6Transport (0 + 0)) = true ∧
    (requestAux c5Transport isoConst 1 0 none).sleepsMs = [] := by
  constructor
  · exact (C5_retry_waits c6Transport isoConst 2 0 none).2.1 0
      (by rw [show (requestAux c6Transport isoConst 2 0 none).attempts = 3 from rfl]; omega)
  · exact (C5_retry_waits c5Transport isoConst 1 0 none).2.2 (fun j => by
      match j with
      | 0 => rfl
      | j' + 1 => rfl)

/-- C6: with a retry budget of 2 and a transport returning 5xx twice then a
success, the executor returns the decoded success after exactly 3 attempts
(waiting 1 s before each resend); and in general a run never performs more
than retries + 1 attempts. -/
theorem C6_attempt_budget :
    request c6Transport isoConst 2 =
      { result := Except.ok (), attempts := 3, sleepsMs := [1000, 1000],
        lastHealthy := some "2026-01-01T00:00:00.000Z" } ∧
    ∀ (transport : Nat → AttemptOutcome) (nowIso : Nat → String)
      (retries idx : Nat) (lh : Option String),
      (requestAux transport nowIso retries idx lh).attempts ≤ retries + 1 := by
  refine ⟨rfl, ?_⟩
  intro transport nowIso retries
  induction retries with
  | zero =>
    intro idx lh
    unfold requestAux
    rcases transport idx with ⟨status, hdr⟩ | _ | m <;> dsimp only
    · split_ifs <;> simp
    · simp
    · simp
  | succ r ih =>
    intro idx lh
    unfold requestAux
    rcases transport idx with ⟨status, hdr⟩ | _ | m <;> dsimp only
    · have := ih (idx + 1) lh
      split_ifs <;> first
        | (simp; omega)
        | simp
    · have := ih (idx + 1) lh
      simp
      omega
    · simp

/-- C7 counterexample: a connection-level failure with no prior success does
terminate with the offline error on the first attempt, but the degraded-mode
message simply omits the last-seen clause — it does not contain the text
"unset" anywhere. -/
theorem C7_counterexample :
    (request (fun _ => .networkError "ECONNREFUSED") isoConst 2).attempts = 1 ∧
    (request (fun _ => .networkError "ECONNREFUSED") isoConst 2).result =
      Except.error ⟨"Cannot reach Engram backend: ECONNREFUSED", 0, true⟩ ∧
    (handleError none
        (.engramErr ⟨"Cannot reach Engram backend: ECONNREFUSED", 0, true⟩)
        "storage").text =
      "Memory storage unavailable — cannot reach Engram backend." ∧
    ¬ ("unset".toList <:+:
        ("Memory storage unavailable — cannot reach Engram backend.").toList) := by
  refine ⟨rfl, rfl, rfl, ?_⟩
  decide

/-- C7 amended: a connection-level failure terminates with the
offline-classified error after a single attempt (no retry), whatever the
remaining budget; the degraded-mode message omits the last-seen clause
entirely when no prior success occurred, and includes " Last seen: "
followed by the exact prior success timestamp otherwise. -/
theorem C7_offline_no_retry (nowIso : Nat → String) (retries idx : Nat)
    (lh : Option String) (m : String) (transport : Nat → AttemptOutcome)
    (h : transport idx = AttemptOutcome.networkError m) :
    requestAux transport nowIso retries idx lh =
      { result := Except.error ⟨"Cannot reach Engram backend: " ++ m, 0, true⟩,
        attempts := 1, sleepsMs := [], lastHealthy := lh } ∧
    (∀ op,
      (handleError none
          (.engramErr ⟨"Cannot reach Engram backend: " ++ m, 0, true⟩) op).text =
        "Memory " ++ op ++ " unavailable — cannot reach Engram backend.") ∧
    (∀ op t, t ≠ "" →
      (handleError (some t)
          (.engramErr ⟨"Cannot reach Engram backend: " ++ m, 0, true⟩) op).text =
        "Memory " ++ op ++ " unavailable — cannot reach Engram backend." ++
          " Last seen: " ++ t) := by
  refine ⟨?_, ?_, ?_⟩
  · cases retries with
    | zero =>
      unfold requestAux
      rw [h]
    | succ r =>
      unfold requestAux
      rw [h]
  · intro op
    unfold handleError
    dsimp only
    rw [if_pos rfl]
    simp [String.append_empty]
  · intro op t ht
    unfold handleError
    dsimp only
    rw [if_pos rfl, if_neg ht]
    simp only [← String.append_assoc]

/-- C7 witness: the amended theorem at a concrete refused connection with a
budget of 2 and a concrete prior-success timestamp. -/
theorem C7_witness :
    requestAux (fun _ => .networkError "ECONNREFUSED") isoConst 2 0 none =
      { result :=
          Except.error ⟨"Cannot reach Engram backend: " ++ "ECONNREFUSED", 0, true⟩,
        attempts := 1, sleepsMs := [], lastHealthy := none } ∧
    (∀ op,
      (handleError none
          (.engramErr ⟨"Cannot reach Engram backend: " ++ "ECONNREFUSED", 0, true⟩)
          op).text =
        "Memory " ++ op ++ " unavailable — cannot reach Engram backend.") ∧
    (∀ op t, t ≠ "" →
      (handleError (some t)
          (.engramErr ⟨"Cannot reach Engram backend: " ++ "ECONNREFUSED", 0, true⟩)
          op).text =
        "Memory " ++ op ++ " unavailable — cannot reach Engram backend." ++
          " Last seen: " ++ t) :=
  C7_offline_no_retry isoConst 2 0 none "ECONNREFUSED"
    (fun _ => .networkError "ECONNREFUSED") rfl

/-! ## C3: the sliding-window admission bound -/

/-- Membership of a timestamp in the 60-second-wide window starting at `s`. -/
def inWin (s W t : Int) : Bool := decide (s ≤ t) && decide (t < s + W)

/-- The stored (last-written) window for a key whose full admitted-timestamp
history is `A`: the last admit wrote back the list pruned at its own time,
which for a monotone history is `A` filtered to entries younger than the
window relative to the last admitted time. -/
def windowOf (W : Int) (A : List Int) : List Int :=
  A.filter (fun t => A.getLastD 0 - t < W)

theorem getLastD_mem (A : List Int) (d : Int) (h : A ≠ []) : A.getLastD d ∈ A := by
  induction A generalizing d with
  | nil => exact absurd rfl h
  | cons a as ih =>
    rw [List.getLastD_cons]
    by_cases has : as = []
    · subst has
      simp
    · exact List.mem_cons_of_mem a (ih a has)

/-- The per-key invariant carried along a monotone call trace: if the stored
window for `k` is the one its admitted history `A` would have written, and
`A` already satisfies the window bound, then the trace's further admitted
calls for `k` keep the bound. -/
theorem rl_run_invariant (k : String) (limit : RateLimit)
    (hk : RATE_LIMITS k = some limit) :
    ∀ (calls : List (String × Int)) (st : Windows) (A : List Int),
      List.Pairwise (fun a b => a ≤ b) (calls.map (fun c => c.2)) →
      (∀ a ∈ A, ∀ c ∈ calls, a ≤ c.2) →
      List.Pairwise (fun a b => a ≤ b) A →
      (mapGet st k).getD [] = windowOf limit.windowMs A →
      (∀ s : Int, A.countP (inWin s limit.windowMs) ≤ limit.maxRequests) →
      ∀ s : Int,
        ((A ++ ((runCalls st calls).2.filter (fun c => c.1 == k)).map
            (fun c => c.2)).countP (inWin s limit.windowMs)) ≤
          limit.maxRequests := by
  have hWpos : (0 : Int) < limit.windowMs := by
    rw [RATE_LIMITS_window k limit hk]
    norm_num
  intro calls
  induction calls with
  | nil =>
    intro st A _ _ _ _ h5 s
    simpa [runCalls] using h5 s
  | cons c rest ih =>
    obtain ⟨op, n⟩ := c
    intro st A h1 h2 h3 h4 h5 s
    rw [List.map_cons] at h1
    obtain ⟨hn_le, h1'⟩ := List.pairwise_cons.mp h1
    by_cases hop : op = k
    · subst hop
      have hQ : pruned st op n limit.windowMs =
          A.filter (fun t => decide (n - t < limit.windowMs)) := by
        unfold pruned
        rw [h4]
        unfold windowOf
        rw [List.filter_filter]
        apply List.filter_congr
        intro t htA
        by_cases hnt : n - t < limit.windowMs
        · have hLmem : A.getLastD 0 ∈ A :=
            getLastD_mem A 0 (List.ne_nil_of_mem htA)
          have hLn : A.getLastD 0 ≤ n :=
            h2 _ hLmem (op, n) (List.mem_cons_self _ _)
          have hLt : A.getLastD 0 - t < limit.windowMs := by omega
          rw [decide_eq_true hnt, decide_eq_true hLt]
          rfl
        · rw [decide_eq_false hnt, Bool.false_and]
      by_cases hlen :
          limit.maxRequests ≤ (pruned st op n limit.windowMs).length
      · have hc : checkRateLimit st op n =
            (st, some ⟨op, limit.maxRequests, Int.ediv limit.windowMs 1000,
              ceilSecs (limit.windowMs -
                (n - (pruned st op n limit.windowMs).headD 0))⟩) := by
          unfold checkRateLimit
          rw [hk]
          dsimp only
          rw [if_pos hlen]
        have hrun : runCalls st ((op, n) :: rest) = runCalls st rest := by
          conv_lhs => rw [runCalls]
          rw [hc]
        rw [hrun]
        exact ih st A h1'
          (fun a ha c hc' => h2 a ha c (List.mem_cons_of_mem _ hc')) h3 h4 h5 s
      · have hc : checkRateLimit st op n =
            (mapSet st op ((pruned st op n limit.windowMs) ++ [n]), none) := by
          unfold checkRateLimit
          rw [hk]
          dsimp only
          rw [if_neg hlen]
        have hrun : runCalls st ((op, n) :: rest) =
            ((runCalls (mapSet st op ((pruned st op n limit.windowMs) ++ [n]))
                rest).1,
             (op, n) ::
               (runCalls (mapSet st op ((pruned st op n limit.windowMs) ++ [n]))
                 rest).2) := by
          conv_lhs => rw [runCalls]
          rw [hc]
        rw [hrun]
        dsimp only
        rw [List.filter_cons_of_pos (by simp), List.map_cons,
          List.append_cons]
        apply ih (mapSet st op ((pruned st op n limit.windowMs) ++ [n]))
          (A ++ [n]) h1'
        · intro a ha c hc'
          rcases List.mem_append.mp ha with ha' | ha'
          · exact h2 a ha' c (List.mem_cons_of_mem _ hc')
          · rw [show a = n from by simpa using ha']
            exact hn_le c.2 (List.mem_map_of_mem _ hc')
        · rw [List.pairwise_append]
          refine ⟨h3, List.pairwise_singleton _ _, fun a ha b hb => ?_⟩
          rw [show b = n from by simpa using hb]
          exact h2 a ha (op, n) (List.mem_cons_self _ _)
        · rw [mapGet_mapSet_self]
          unfold windowOf
          rw [List.getLastD_concat, List.filter_append, hQ]
          have hn1 : [n].filter (fun t => decide (n - t < limit.windowMs)) = [n] := by
            simp
            omega
          rw [hn1]
          rfl
        · intro s'
          rw [List.countP_append]
          by_cases hwin : inWin s' limit.windowMs n = true
          · have hcount1 : List.countP (inWin s' limit.windowMs) [n] = 1 := by
              simp [hwin]
            have hsub : A.countP (inWin s' limit.windowMs) ≤
                A.countP (fun t => decide (n - t < limit.windowMs)) := by
              apply List.countP_mono_left
              intro a _ hin
              unfold inWin at hin hwin
              simp only [Bool.and_eq_true, decide_eq_true_eq] at hin hwin
              exact decide_eq_true (by omega)
            have hQlen : A.countP (fun t => decide (n - t < limit.windowMs)) <
                limit.maxRequests := by
              rw [List.countP_eq_length_filter, ← hQ]
              omega
            omega
          · have hcount0 : List.countP (inWin s' limit.windowMs) [n] = 0 := by
              simp [hwin]
            have := h5 s'
            omega
    · have hopk : ((op, n).1 == k) = false := beq_false_of_ne hop
      rcases hc : checkRateLimit st op n with ⟨w', res⟩
      have hpres : mapGet w' k = mapGet st k := by
        have := checkRateLimit_other_key st op k n hop
        rw [hc] at this
        exact this
      have h4' : (mapGet w' k).getD [] = windowOf limit.windowMs A := by
        rw [hpres]
        exact h4
      have h2' : ∀ a ∈ A, ∀ c ∈ rest, a ≤ c.2 :=
        fun a ha c hc' => h2 a ha c (List.mem_cons_of_mem _ hc')
      cases res with
      | none =>
        have hrun : runCalls st ((op, n) :: rest) =
            ((runCalls w' rest).1, (op, n) :: (runCalls w' rest).2) := by
          conv_lhs => rw [runCalls]
          rw [hc]
        rw [hrun]
        dsimp only
        rw [List.filter_cons_of_neg (by simp [hopk])]
        exact ih w' A h1' h2' h3 h4' h5 s
      | some e =>
        have hrun : runCalls st ((op, n) :: rest) = runCalls w' rest := by
          conv_lhs => rw [runCalls]
          rw [hc]
        rw [hrun]
        exact ih w' A h1' h2' h3 h4' h5 s

/-- C3 amended: for every sequence of `checkRateLimit` calls with
non-decreasing timestamps (the clock never runs backwards), and every
operation in the budget table (remember 30, recall 60, search 60, forget 10,
context 20, observe 30, health 60 — all per 60-second window), the admitted
calls for that operation within any 60-second sliding window never exceed
the operation's budget. -/
theorem C3_sliding_window_bound :
    (RATE_LIMITS "remember" = some ⟨30, 60000⟩ ∧
     RATE_LIMITS "recall" = some ⟨60, 60000⟩ ∧
     RATE_LIMITS "search" = some ⟨60, 60000⟩ ∧
     RATE_LIMITS "forget" = some ⟨10, 60000⟩ ∧
     RATE_LIMITS "context" = some ⟨20, 60000⟩ ∧
     RATE_LIMITS "observe" = some ⟨30, 60000⟩ ∧
     RATE_LIMITS "health" = some ⟨60, 60000⟩) ∧
    ∀ (calls : List (String × Int)) (k : String) (limit : RateLimit),
      RATE_LIMITS k = some limit →
      List.Pairwise (fun a b => a ≤ b) (calls.map (fun c => c.2)) →
      ∀ s : Int,
        (allowedTimes k calls).countP (inWin s limit.windowMs) ≤
          limit.maxRequests := by
  refine ⟨⟨rfl, rfl, rfl, rfl, rfl, rfl, rfl⟩, ?_⟩
  intro calls k limit hk hmono s
  have h := rl_run_invariant k limit hk calls [] [] hmono (by simp) (by simp)
    (by rfl) (by simp) s
  simpa [allowedTimes] using h

/-- The timestamp sequence refuting the claim for arbitrary (non-monotone)
timestamps: ten forget calls at t = 0, one at t = 60000 (which prunes the
ten), then nine at t = 59999 (admitted against the nearly-empty window). -/
def c3BadCalls : List (String × Int) :=
  (List.replicate 10 ("forget", (0 : Int))) ++ [("forget", 60000)] ++
  (List.replicate 9 ("forget", (59999 : Int)))

/-- C3 counterexample: at the non-monotone timestamp sequence `c3BadCalls`
the limiter admits 19 forget calls whose timestamps lie within the single
60-second window [0, 60000), against a budget of 10. -/
theorem C3_counterexample :
    RATE_LIMITS "forget" = some ⟨10, 60000⟩ ∧
    (allowedTimes "forget" c3BadCalls).countP (inWin 0 60000) = 19 ∧
    10 < 19 := by
  refine ⟨rfl, by decide, by decide⟩

/-- C3 witness: the amended bound at a concrete two-call monotone trace. -/
theorem C3_witness :
    (allowedTimes "forget" [("forget", 0), ("forget", 1)]).countP
      (inWin 0 60000) ≤ 10 :=
  (C3_sliding_window_bound).2 [("forget", 0), ("forget", 1)] "forget"
    ⟨10, 60000⟩ rfl (by decide) 0
